import Mathlib

/-!
# Verification of the Starmind-Zero benchmark and inference pipeline

Shallow embedding of `src/benchmarks/benchmark.py` and `src/inference.py`.
Pure Python functions become Lean functions; filesystem state, the external
model/tokenizer boundary and wall-clock timings are passed in explicitly as
data or function parameters.  JSON values produced by `json.load` are
modelled by the inductive `JVal`; Python `str()` on such values by `pyStr`.
-/

/-- A JSON value as produced by Python's `json.load`: `null`, booleans,
(integer) numbers, strings, arrays and objects.  Objects keep their fields
in file order; a duplicate key is resolved by `jGet` taking the last
occurrence, as `json.load` does. -/
inductive JVal where
  | null : JVal
  | bool (b : Bool) : JVal
  | num (n : Int) : JVal
  | str (s : String) : JVal
  | list (xs : List JVal) : JVal
  | obj (fields : List (String × JVal)) : JVal

/-- Python `repr` of a string originating from JSON: single quotes by
default; double quotes when the string contains `'` but no `"`; the chosen
quote and the backslash are escaped. -/
def pyReprStr (s : String) : String :=
  let q : Char := if s.contains '\'' && !(s.contains '"') then '"' else '\''
  let body := s.toList.foldr
    (fun c acc => if c = '\\' || c = q then '\\' :: c :: acc else c :: acc) []
  String.mk (q :: body ++ [q])

mutual

/-- Python `repr()` on a JSON-derived value (`None`, `True`/`False`,
numbers, quoted strings, `[...]` lists, `\x7b...\x7d` dicts). -/
def pyRepr : JVal → String
  | JVal.null => "None"
  | JVal.bool b => if b then "True" else "False"
  | JVal.num n => toString n
  | JVal.str s => pyReprStr s
  | JVal.list xs => "[" ++ pyReprList xs ++ "]"
  | JVal.obj fields => "\x7b" ++ pyReprFields fields ++ "\x7d"

/-- Comma-separated `repr`s of the elements of a JSON array. -/
def pyReprList : List JVal → String
  | [] => ""
  | [x] => pyRepr x
  | x :: xs => pyRepr x ++ ", " ++ pyReprList xs

/-- Comma-separated `'key': repr(value)` items of a JSON object. -/
def pyReprFields : List (String × JVal) → String
  | [] => ""
  | [(k, v)] => pyReprStr k ++ ": " ++ pyRepr v
  | (k, v) :: fs => pyReprStr k ++ ": " ++ pyRepr v ++ ", " ++ pyReprFields fs

end

/-- Python `str()` on a JSON-derived value: the string itself for strings,
`repr` otherwise (as in an f-string interpolation). -/
def pyStr : JVal → String
  | JVal.str s => s
  | v => pyRepr v

/-- The observable outcomes of opening and `json.load`-ing a file:
the file is absent, it fails to parse (`json.JSONDecodeError`), or it
parses to a JSON value. -/
inductive JsonFile where
  | missing : JsonFile
  | unparsable : JsonFile
  | parsed (v : JVal) : JsonFile

/-- Python `dict` lookup on a JSON object's field list (`json.load` keeps
the last occurrence of a duplicated key). -/
def jGet (fields : List (String × JVal)) (k : String) : Option JVal :=
  (fields.reverse.find? (fun kv => kv.1 == k)).map Prod.snd

/-- Python `key in dict`. -/
def hasKey (fields : List (String × JVal)) (k : String) : Bool :=
  (jGet fields k).isSome

/-- The fallback prompt of `load_prompts` (benchmark.py lines 38/53/61/65). -/
def fallbackPrompt : JVal := JVal.str "Hello, how are you?"

/-- `p.get("text", str(p))` for one legacy entry `p` (benchmark.py line 47):
the `text` field when the key is present (whatever its value), otherwise the
`str()` of the whole dict. -/
def legacyEntryPrompt (fields : List (String × JVal)) : JVal :=
  (jGet fields "text").getD (JVal.str (pyStr (JVal.obj fields)))

/-- The comprehension `[p.get("text", str(p)) for p in ...]` (benchmark.py
line 47).  `none` models the `AttributeError` raised as soon as an entry is
not a dict (caught by the enclosing `except Exception`). -/
def legacyExtract : List JVal → Option (List JVal)
  | [] => some []
  | JVal.obj fields :: rest =>
      (legacyExtract rest).map (fun r => legacyEntryPrompt fields :: r)
  | _ :: _ => none

/-- Iterating `prompts["benchmark_prompts"]` in the comprehension of
benchmark.py line 47, for each possible JSON type of that value.  A list
iterates its elements; a string iterates its characters (each a non-dict
string, so any character raises); a dict iterates its keys (strings, so any
key raises); `null`, booleans and numbers are not iterable (`TypeError`).
`none` models an exception reaching `except Exception` (fallback). -/
def legacyFromValue : JVal → Option (List JVal)
  | JVal.list entries => legacyExtract entries
  | JVal.str s => if s.isEmpty then some [] else none
  | JVal.obj fields => if fields.isEmpty then some [] else none
  | _ => none

/-- `load_prompts` (benchmark.py lines 20-65) given the outcome of reading
the prompts file.  Returns the loaded prompt values; every failure path
returns the one-element fallback list. -/
def load_prompts (src : JsonFile) : List JVal :=
  match src with
  | JsonFile.missing => [fallbackPrompt]
  | JsonFile.unparsable => [fallbackPrompt]
  | JsonFile.parsed v =>
    match v with
    | JVal.obj fields =>
      if hasKey fields "benchmark_prompts" then
        match (jGet fields "benchmark_prompts").bind legacyFromValue with
        | some ps => ps
        | none => [fallbackPrompt]
      else [fallbackPrompt]
    | JVal.list xs => xs
    | _ => [fallbackPrompt]

/-! ## Checkpoint directory scanner (`discover_checkpoints`, benchmark.py 68-100) -/

/-- A character Python's `str.strip()` (and `int()`) treats as whitespace:
space, tab, newline, carriage return, vertical tab, form feed. -/
def isPySpace (c : Char) : Bool :=
  c = ' ' || c = '\t' || c = '\n' || c = '\r' || c.toNat = 11 || c.toNat = 12

/-- The numeric value of a nonempty all-ASCII-digit character list;
`none` otherwise. -/
def digitsVal : List Char → Option Nat
  | [] => none
  | cs => cs.foldl
      (fun acc c => acc.bind (fun n =>
        if c.isDigit then some (n * 10 + (c.toNat - '0'.toNat)) else none))
      (some 0)

/-- Python `int(s)` on an underscore-free string (as a code-point list):
surrounding whitespace is ignored, an optional `+`/`-` sign precedes at
least one ASCII digit; `none` models the `ValueError` on anything else.
(CPython also accepts Unicode digits and underscores between digits;
underscores cannot occur here because the argument is a piece of
`split('_')`.) -/
def pyInt (cs0 : List Char) : Option Int :=
  match ((cs0.dropWhile isPySpace).reverse.dropWhile isPySpace).reverse with
  | '-' :: ds => (digitsVal ds).map (fun n => -(n : Int))
  | '+' :: ds => (digitsVal ds).map (fun n => (n : Int))
  | ds => (digitsVal ds).map (fun n => (n : Int))

/-- Whether the second list begins with the first (`str.startswith`, and
the only constraint the `step_*` glob pattern imposes on a name). -/
def startsWithChars : List Char → List Char → Bool
  | [], _ => true
  | _ :: _, [] => false
  | p :: ps, c :: cs => p = c && startsWithChars ps cs

/-- Python `s.split(sep)` for a one-character separator. -/
def splitOnChar (sep : Char) : List Char → List (List Char)
  | [] => [[]]
  | c :: cs =>
      if c = sep then [] :: splitOnChar sep cs
      else
        match splitOnChar sep cs with
        | [] => [[c]]
        | piece :: rest => (c :: piece) :: rest

/-- One entry of the checkpoint root directory: its name and whether it is
a directory (`os.path.isdir`). -/
structure DirEntry where
  name : String
  isDir : Bool
deriving DecidableEq

/-- The step key the scanner computes for an entry name:
`int(os.path.basename(p).split('_')[1])` (benchmark.py line 93), `none`
modelling the `(IndexError, ValueError)` that makes the entry be skipped. -/
def stepKey (n : String) : Option Int :=
  ((splitOnChar '_' n.toList).get? 1).bind pyInt

/-- The `valid_checkpoints` list of `(step_num, path)` pairs built by the
scanner's loop (benchmark.py 89-96): glob-match `step_*`, keep directories
whose `stepKey` parses. -/
def validPairs (entries : List DirEntry) : List (Int × String) :=
  entries.filterMap (fun e =>
    if startsWithChars "step_".toList e.name.toList && e.isDir then
      (stepKey e.name).map (fun k => (k, e.name))
    else none)

/-- `discover_checkpoints` (benchmark.py 68-100) restricted to the entry
names of the checkpoint root: stable-sort the valid pairs by step number
(Python's `list.sort` with `key=`, which `List.insertionSort` with `≤` on
the key reproduces exactly, both being stable) and return the names in
sorted order. -/
def discover_checkpoints (entries : List DirEntry) : List String :=
  ((validPairs entries).insertionSort (fun a b => a.1 ≤ b.1)).map Prod.snd

/-- The step parse demanded by the claim's words: the suffix of the name
after `step_` read as a non-negative integer (all-digit suffix). -/
def claimStep (n : String) : Option Nat :=
  if startsWithChars "step_".toList n.toList then digitsVal (n.toList.drop 5)
  else none

/-! ## Benchmark orchestrator (`run_benchmark`, benchmark.py 103-203)

The model/tokenizer boundary is passed in as two functions:
`load cp` is the outcome of `PicoLMInference(checkpoint_path=cp, ...)`
(an error message, or success together with the measured load time), and
`gen cp p` the outcome of `inference.generate_completion(prompt=p, ...)`
(an error message, or the response text together with the generation time).
Wall-clock durations are `Nat`s counting hundredths of a second, which is
exactly the precision the report's `:.2f` format keeps. -/

/-- Outcome of one `generate_completion` call at the orchestrator:
the response text and its duration, or the caught exception's message. -/
abbrev GenOutcome := Except String (String × Nat)

/-- What the report records for one checkpoint: its path, the load outcome
(load time or checkpoint error), and one entry per attempted prompt. -/
structure CheckpointSection where
  path : String
  loadResult : Except String Nat
  promptResults : List GenOutcome

/-- The per-checkpoint body of the loop of benchmark.py 158-200: a failed
load records the error and attempts no prompts; a successful load runs
every prompt, recording each outcome (success or failure) in order. -/
def processCheckpoint (load : String → Except String Nat)
    (gen : String → JVal → GenOutcome)
    (prompts : List JVal) (cp : String) : CheckpointSection :=
  match load cp with
  | Except.error e => ⟨cp, Except.error e, []⟩
  | Except.ok t => ⟨cp, Except.ok t, prompts.map (gen cp)⟩

/-- The sections `run_benchmark` writes, one per discovered checkpoint in
scan order (benchmark.py 158-200). -/
def benchmarkSections (load : String → Except String Nat)
    (gen : String → JVal → GenOutcome)
    (cps : List String) (prompts : List JVal) : List CheckpointSection :=
  cps.map (processCheckpoint load gen prompts)

/-! ## Report writer (the `f.write` calls of benchmark.py 150-200) -/

/-- `os.path.basename`: everything after the last `/`. -/
def basename (p : String) : String :=
  ((p.splitOn "/").getLast?).getD p

/-- Python's `f"{x:.2f}"` on a non-negative duration counted in
hundredths of a second. -/
def fmt2 (t : Nat) : String :=
  toString (t / 100) ++ "." ++ (if t % 100 < 10 then "0" else "") ++ toString (t % 100)

/-- The `### Prompt j` block written for one prompt (benchmark.py 177-194). -/
def promptBlock (j : Nat) (p : JVal) (r : GenOutcome) : String :=
  "### Prompt " ++ toString j ++ ": \"" ++ pyStr p ++ "\"\n\n" ++
  (match r with
   | Except.ok (resp, t) =>
       "**Response**:\n```\n" ++ resp ++ "\n```\n\n" ++
       "**Metadata**: max_length=100, temperature=0.7, time=" ++ fmt2 t ++ "s\n\n"
   | Except.error e => "**Error**: " ++ e ++ "\n\n")

/-- The two header lines of a checkpoint section (benchmark.py 162-163). -/
def sectionHeader (cp : String) : String :=
  "## Checkpoint: " ++ basename cp ++ "\n\n**Path**: `" ++ cp ++ "`\n\n"

/-- Prompt blocks numbered from `j` (`enumerate(benchmark_prompts, 1)`),
pairing each prompt with its recorded outcome. -/
def renderPrompts (j : Nat) : List JVal → List GenOutcome → String
  | [], _ => ""
  | _ :: _, [] => ""
  | p :: ps, r :: rs => promptBlock j p r ++ renderPrompts (j + 1) ps rs

/-- Pure rendering of one recorded checkpoint section. -/
def renderSection (prompts : List JVal) (s : CheckpointSection) : String :=
  sectionHeader s.path ++
  (match s.loadResult with
   | Except.ok t =>
       "**Load Time**: " ++ fmt2 t ++ "s\n\n" ++ renderPrompts 1 prompts s.promptResults
   | Except.error e => "**Checkpoint Error**: " ++ e ++ "\n\n") ++
  "---\n\n"

/-- The accumulated report data of one run (spec §3 `BenchmarkReport`):
model name, generation timestamp, the prompt set, and one recorded section
per checkpoint in scan order. -/
structure BenchmarkReport where
  modelName : String
  generatedAt : String
  prompts : List JVal
  sections : List CheckpointSection

/-- Concatenated rendering of recorded sections, in order. -/
def renderSections (prompts : List JVal) : List CheckpointSection → String
  | [] => ""
  | s :: ss => renderSection prompts s ++ renderSections prompts ss

/-- Pure rendering of a whole report: header block then the sections. -/
def renderReport (r : BenchmarkReport) : String :=
  "# Benchmark Report: " ++ r.modelName ++ "\n\n" ++
  "**Generated**: " ++ r.generatedAt ++ "\n" ++
  "**Total Checkpoints**: " ++ toString r.sections.length ++ "\n" ++
  "**Total Prompts**: " ++ toString r.prompts.length ++ "\n\n---\n\n" ++
  renderSections r.prompts r.sections

/-- The report data accumulated by `run_benchmark` for given boundary
outcomes. -/
def buildReport (name ts : String) (load : String → Except String Nat)
    (gen : String → JVal → GenOutcome)
    (cps : List String) (prompts : List JVal) : BenchmarkReport :=
  ⟨name, ts, prompts, benchmarkSections load gen cps prompts⟩

/-- The inner prompt loop exactly as the code streams it (benchmark.py
174-194): generate for each prompt in turn and write its block. -/
def genLoop (gen : String → JVal → GenOutcome) (cp : String) :
    Nat → List JVal → String
  | _, [] => ""
  | j, p :: ps => promptBlock j p (gen cp p) ++ genLoop gen cp (j + 1) ps

/-- The checkpoint loop exactly as the code streams it (benchmark.py
158-200). -/
def writeLoop (load : String → Except String Nat)
    (gen : String → JVal → GenOutcome) (prompts : List JVal) :
    List String → String
  | [] => ""
  | cp :: rest =>
      sectionHeader cp ++
      (match load cp with
       | Except.ok t => "**Load Time**: " ++ fmt2 t ++ "s\n\n" ++ genLoop gen cp 1 prompts
       | Except.error e => "**Checkpoint Error**: " ++ e ++ "\n\n") ++
      "---\n\n" ++ writeLoop load gen prompts rest

/-- The full byte stream `run_benchmark` writes to the report file
(benchmark.py 150-200), as the code interleaves it. -/
def writtenDoc (name ts : String) (load : String → Except String Nat)
    (gen : String → JVal → GenOutcome)
    (cps : List String) (prompts : List JVal) : String :=
  "# Benchmark Report: " ++ name ++ "\n\n" ++
  "**Generated**: " ++ ts ++ "\n" ++
  "**Total Checkpoints**: " ++ toString cps.length ++ "\n" ++
  "**Total Prompts**: " ++ toString prompts.length ++ "\n\n---\n\n" ++
  writeLoop load gen prompts cps

/-! ## CLI entry point (`main` and the fatal paths of `run_benchmark`) -/

/-- `run_benchmark`'s result (benchmark.py 103-203): `none` models the
`return None` paths (no prompts, checkpoint root missing, zero valid
checkpoints, inference import failure), `some` the produced report path. -/
def runBenchmark (src : JsonFile) (rootExists : Bool) (entries : List DirEntry)
    (importOk : Bool) (outputDir modelName ts : String) : Option String :=
  let prompts := load_prompts src
  if prompts.isEmpty then none
  else if !rootExists then none
  else if (discover_checkpoints entries).isEmpty then none
  else if !importOk then none
  else some (outputDir ++ "/" ++ modelName ++ "_benchmark_" ++ ts ++ ".md")

/-- How `main` terminates (benchmark.py 227-242): `run_benchmark`
returned, the user pressed Ctrl-C (`KeyboardInterrupt`), or an unexpected
exception was caught. -/
inductive MainOutcome where
  | completed (r : Option String) : MainOutcome
  | interrupted : MainOutcome
  | crashed : MainOutcome
deriving DecidableEq

/-- The process exit code `main` returns (benchmark.py 229-242). -/
def mainExitCode : MainOutcome → Nat
  | MainOutcome.completed (some _) => 0
  | MainOutcome.completed none => 1
  | MainOutcome.interrupted => 1
  | MainOutcome.crashed => 1

/-! ## Inference post-processing (`generate_completion`, inference.py 149-154) -/

/-- Python `str.strip()` with no argument: remove leading and trailing
whitespace characters.  Strings are modelled as code-point lists, matching
Python's indexing/length semantics. -/
def pyStrip (s : List Char) : List Char :=
  ((s.dropWhile isPySpace).reverse.dropWhile isPySpace).reverse

/-- The text `generate_completion` returns (inference.py 149-154), given
the prompt and the decoded output of the boundary tokenizer:
`generated_text[len(prompt):].strip()`. -/
def generate_completion (prompt decoded : List Char) : List Char :=
  pyStrip (decoded.drop prompt.length)

/-- What the claim's words say the function returns: the decoded text with
the prompt prefix removed from the front and nothing else altered. -/
def specCompletion (prompt decoded : List Char) : List Char :=
  decoded.drop prompt.length

/-! ## Decoding engine sampling policy

Modelled from the spec: the nucleus (top-p) filter of §4.4 step 2c.  The
sampling loop itself lives in the external generation library
(`self.model.generate`, inference.py 138-147); only its parameters are set
in this repository, so the filter is reconstructed from the spec's words:
sort tokens by probability descending, keep the smallest prefix whose
cumulative probability reaches `top_p`, drop and renormalize the rest.
Token probabilities are rationals; a token is an index paired with its
probability. -/

/-- Modelled from the spec: "sort tokens by probability descending"
(§4.4 2c). -/
def sortByProbDesc (l : List (Nat × ℚ)) : List (Nat × ℚ) :=
  l.insertionSort (fun a b => b.2 ≤ a.2)

/-- Modelled from the spec: "keep the smallest prefix whose cumulative
probability ≥ top_p" (§4.4 2c), on an already sorted list. -/
def nucleusTake (topP : ℚ) : List (Nat × ℚ) → List (Nat × ℚ)
  | [] => []
  | t :: rest => if topP ≤ t.2 then [t] else t :: nucleusTake (topP - t.2) rest

/-- Modelled from the spec: "zero out and renormalize the remainder"
(§4.4 2c): the kept tokens are rescaled to sum to one. -/
def renormalize (l : List (Nat × ℚ)) : List (Nat × ℚ) :=
  l.map (fun t => (t.1, t.2 / (l.map Prod.snd).sum))

/-- Modelled from the spec: the whole nucleus filtering step applied to a
next-token distribution (§4.4 2c). -/
def nucleusFilter (topP : ℚ) (l : List (Nat × ℚ)) : List (Nat × ℚ) :=
  renormalize (nucleusTake topP (sortByProbDesc l))

/-! ## Import-time cache clearing (`clear_model_cache`, inference.py 17-37) -/

/-- The four cache roots `clear_model_cache` removes, with `~` expanded to
the given home directory (inference.py 20-25). -/
def cacheDirs (home : String) : List String :=
  [home ++ "/.cache/huggingface", home ++ "/.cache/torch",
   home ++ "/.cache/transformers", home ++ "/.cache/safetensors"]

/-- Whether path `p` lies in the tree rooted at `d` (is `d` itself or has
`d/` as a prefix), i.e. is removed by a successful `shutil.rmtree(d)`. -/
def inTree (d p : String) : Bool :=
  p == d || startsWithChars (d ++ "/").toList p.toList

/-- One iteration of the loop of inference.py 27-34 on a filesystem
modelled as the list of its existing paths: if the cache root exists
(`os.path.exists`), attempt `shutil.rmtree`; the boundary `rmtreeFails`
says whether that call raises, in which case the `except Exception`
swallows the error (printing a warning) and the tree is left in place;
otherwise the whole tree is removed. -/
def rmStep (rmtreeFails : String → Bool) (acc : List String)
    (d : String) : List String :=
  if d ∈ acc then
    if rmtreeFails d then acc
    else acc.filter (fun p => !(inTree d p))
  else acc

/-- `clear_model_cache` (inference.py 18-34): attempt to remove each of
the four cache roots in order, tolerating per-root `rmtree` failure. -/
def clear_model_cache (home : String) (rmtreeFails : String → Bool)
    (fs : List String) : List String :=
  (cacheDirs home).foldl (rmStep rmtreeFails) fs

/-- The filesystem after `import inference`: module top level calls
`clear_model_cache()` (inference.py line 37), before any
`PicoLMInference` can be constructed in the process. -/
def importInference (home : String) (rmtreeFails : String → Bool)
    (fs : List String) : List String :=
  clear_model_cache home rmtreeFails fs

/-! ## Model loading (`PicoLMInference.__init__`, inference.py 42-103)

External collaborators (the `PicoDecoderHFConfig`/model constructors,
`.to(device)` placement and `AutoTokenizer` loading) are boundary calls
whose success is passed in as flags; the state dict read by
`safetensors.load_file` is a name-to-value map with tensor contents
abstracted to integers. -/

/-- What `__init__` can observe about a checkpoint directory and its
boundary calls. -/
structure CheckpointEnv where
  config : JsonFile
  ctorOk : Bool
  weights : Option (List (String × Int))
  deviceOk : Bool
  tokenizerOk : Bool

/-- The distinct exception sources of `__init__`, in program order. -/
inductive InitError where
  | configMissing : InitError
  | configJson : InitError
  | configNotDict : InitError
  | ctorFail : InitError
  | weightsMissing : InitError
  | deviceFail : InitError
  | tokenizerFail : InitError
deriving DecidableEq

/-- `load_state_dict(state_dict, strict=False)` (inference.py 85): every
model parameter present in the state dict takes the stored value, every
missing one keeps its initial value, extra stored tensors are ignored,
and no error is raised either way. -/
def loadStateDictNonStrict (params sd : List (String × Int)) : List (String × Int) :=
  params.map (fun kv =>
    match sd.find? (fun st => st.1 == kv.1) with
    | some st => (kv.1, st.2)
    | none => kv)

/-- `PicoLMInference.__init__` (inference.py 42-103): check `config.json`
exists, `json.load` it (unguarded: a parse failure propagates), build the
config from its fields (`**` requires a JSON object), create the model,
check `model.safetensors` exists, non-strictly load the state dict, move
to the device, load the tokenizer.  The handle is the final parameter
map of the model. -/
def picoInit (modelParams : List (String × Int)) (cp : CheckpointEnv) :
    Except InitError (List (String × Int)) :=
  match cp.config with
  | JsonFile.missing => Except.error InitError.configMissing
  | JsonFile.unparsable => Except.error InitError.configJson
  | JsonFile.parsed v =>
    match v with
    | JVal.obj _ =>
      if cp.ctorOk then
        match cp.weights with
        | none => Except.error InitError.weightsMissing
        | some sd =>
          if cp.deviceOk then
            if cp.tokenizerOk then Except.ok (loadStateDictNonStrict modelParams sd)
            else Except.error InitError.tokenizerFail
          else Except.error InitError.deviceFail
      else Except.error InitError.ctorFail
    | _ => Except.error InitError.configNotDict

/-! ## Spec-side defs used to state the claims -/

/-- A top-level JSON value `load_prompts` recognizes neither as a plain
list nor as the legacy dict form (benchmark.py line 51's `else`). -/
def unrecognizedTop : JVal → Bool
  | JVal.list _ => false
  | JVal.obj fields => !(hasKey fields "benchmark_prompts")
  | _ => true

/-- Whether a legacy `benchmark_prompts` entry is a JSON object (a Python
dict, the only type carrying `.get`). -/
def isDictEntry : JVal → Bool
  | JVal.obj _ => true
  | _ => false

/-- The scanner claim exactly as stated: output strictly ascending in the
claim's `step_` suffix parse, containing only directories whose suffix
parses as a non-negative integer, all other entries excluded. -/
def scannerClaim (entries : List DirEntry) : Prop :=
  (discover_checkpoints entries).Pairwise
    (fun a b => ∃ x y, claimStep a = some x ∧ claimStep b = some y ∧ x < y) ∧
  (∀ n ∈ discover_checkpoints entries,
    ∃ e ∈ entries, e.name = n ∧ e.isDir = true ∧ (claimStep n).isSome = true) ∧
  (∀ e ∈ entries, (e.isDir = false ∨ claimStep e.name = none) →
    e.name ∉ discover_checkpoints entries)

/-- A concrete checkpoint root refuting the scanner claim: a negative
step, a suffix with junk after a second underscore, and two distinct names
parsing to the same step. -/
def scannerCex : List DirEntry :=
  [⟨"step_05", true⟩, ⟨"step_5", true⟩, ⟨"step_-1", true⟩, ⟨"step_3_x", true⟩]

/-! ## Theorems -/

/-- C5 counterexample: `generate_completion` does not return the decoded
text with only the prompt prefix removed — the trailing `.strip()`
(inference.py line 153) also deletes surrounding whitespace, so on prompt
`"Hi"` and decoded text `"Hi there "` the code yields `"there"` while pure
prefix removal yields `" there "`. -/
theorem c5_completion_counterexample :
    generate_completion "Hi".toList "Hi there ".toList ≠
      specCompletion "Hi".toList "Hi there ".toList := by
  decide

/-- C5 (amended): when the decoded text extends the prompt,
`generate_completion` returns the completion after the prompt with leading
and trailing Python whitespace stripped (the `[len(prompt):]` slice
composed with `.strip()`, inference.py 153). -/
theorem c5_completion_amended (prompt rest : List Char) :
    generate_completion prompt (prompt ++ rest) = pyStrip rest := by
  unfold generate_completion
  rw [List.drop_left]

/-- C9 counterexample: `PicoLMInference.__init__` raises even though both
`config.json` and `model.safetensors` are present — `json.load` of the
config is unguarded (inference.py 64-66), so an unparsable config
propagates `JSONDecodeError`. -/
theorem c9_init_counterexample :
    picoInit [("w", 1)]
      ⟨JsonFile.unparsable, true, some [("w", 0)], true, true⟩ =
      Except.error InitError.configJson ∧
    (JsonFile.unparsable ≠ JsonFile.missing) ∧
    (some [("w", (0 : Int))] ≠ (none : Option (List (String × Int)))) :=
  ⟨rfl, fun h => JsonFile.noConfusion h, fun h => Option.noConfusion h⟩

/-- C9 (amended): construction fails when the config file or the weights
file is absent, and can also fail on config parsing/shape, on the external
config/model constructors, on device placement or on tokenizer loading;
when everything up to the tokenizer succeeds, a weights file with missing
or extra tensors is loaded without error through
`load_state_dict(strict=False)`, the handle taking stored values where
present and keeping defaults elsewhere, with the model's parameter set
unchanged. -/
theorem c9_init_amended :
    (∀ (mp : List (String × Int)) c w d t,
      picoInit mp ⟨JsonFile.missing, c, w, d, t⟩ =
        Except.error InitError.configMissing) ∧
    (∀ (mp : List (String × Int)) fields d t,
      picoInit mp ⟨JsonFile.parsed (JVal.obj fields), true, none, d, t⟩ =
        Except.error InitError.weightsMissing) ∧
    (∀ (mp : List (String × Int)) fields sd,
      picoInit mp ⟨JsonFile.parsed (JVal.obj fields), true, some sd, true, true⟩ =
        Except.ok (loadStateDictNonStrict mp sd)) ∧
    (∀ (mp sd : List (String × Int)),
      (loadStateDictNonStrict mp sd).map Prod.fst = mp.map Prod.fst) := by
  refine ⟨fun mp c w d t => rfl, fun mp fields d t => rfl,
    fun mp fields sd => rfl, fun mp sd => ?_⟩
  unfold loadStateDictNonStrict
  rw [List.map_map]
  refine List.map_congr_left (fun kv _ => ?_)
  simp only [Function.comp_apply]
  cases h : sd.find? (fun st => st.1 == kv.1) <;> simp [h]

/-- The legacy comprehension on an all-dict entry list succeeds and maps
each entry to its prompt. -/
theorem legacyExtract_map_obj :
    ∀ fs : List (List (String × JVal)),
      legacyExtract (fs.map JVal.obj) = some (fs.map legacyEntryPrompt)
  | [] => rfl
  | f :: rest => by
      simp [legacyExtract, legacyExtract_map_obj rest]

/-- The legacy comprehension fails (raises `AttributeError`) as soon as
some entry is not a dict. -/
theorem legacyExtract_none_of_nondict :
    ∀ entries : List JVal, (∃ x ∈ entries, isDictEntry x = false) →
      legacyExtract entries = none
  | [], h => absurd h (by simp)
  | JVal.obj fields :: rest, h => by
      obtain ⟨x, hx, hxd⟩ := h
      rcases List.mem_cons.mp hx with rfl | hx'
      · exact absurd hxd (by simp [isDictEntry])
      · simp [legacyExtract, legacyExtract_none_of_nondict rest ⟨x, hx', hxd⟩]
  | JVal.null :: rest, _ => rfl
  | JVal.bool _ :: rest, _ => rfl
  | JVal.num _ :: rest, _ => rfl
  | JVal.str _ :: rest, _ => rfl
  | JVal.list _ :: rest, _ => rfl

/-- C3 counterexample: a prompt source parsing to the empty JSON list `[]`
is an empty prompt source, yet `load_prompts` returns the empty list
(benchmark.py 48-50, 56), not the one-element fallback. -/
theorem c3_load_prompts_counterexample :
    load_prompts (JsonFile.parsed (JVal.list [])) = [] ∧
    ([] : List JVal) ≠ [fallbackPrompt] :=
  ⟨rfl, fun h => List.noConfusion h⟩

/-- C3 (amended): for a missing, unparsable or structurally unrecognized
prompt source `load_prompts` returns exactly `["Hello, how are you?"]`
(and, being a total function, never raises); a source parsing to a JSON
list is returned as-is, so an empty list yields zero prompts with no
fallback. -/
theorem c3_load_prompts_amended :
    load_prompts JsonFile.missing = [fallbackPrompt] ∧
    load_prompts JsonFile.unparsable = [fallbackPrompt] ∧
    (∀ v, unrecognizedTop v = true →
      load_prompts (JsonFile.parsed v) = [fallbackPrompt]) ∧
    (∀ xs, load_prompts (JsonFile.parsed (JVal.list xs)) = xs) := by
  refine ⟨rfl, rfl, fun v hv => ?_, fun xs => rfl⟩
  cases v with
  | list xs => exact absurd hv (by simp [unrecognizedTop])
  | obj fields =>
      have h : hasKey fields "benchmark_prompts" = false := by
        simpa [unrecognizedTop] using hv
      simp [load_prompts, h]
  | null => rfl
  | bool b => rfl
  | num n => rfl
  | str s => rfl

/-- C3 witness: a top-level JSON string is unrecognized and falls back. -/
theorem c3_load_prompts_witness :
    unrecognizedTop (JVal.str "hi") = true ∧
    load_prompts (JsonFile.parsed (JVal.str "hi")) = [fallbackPrompt] :=
  ⟨rfl, c3_load_prompts_amended.2.2.1 (JVal.str "hi") rfl⟩

/-- C10 counterexample: in a legacy source whose `benchmark_prompts` list
holds the plain string `"x"`, the claim predicts the one-prompt list
`[str("x")] = ["x"]`, but the `.get` call on a non-dict entry raises
`AttributeError`, the catch-all returns the fallback (benchmark.py 47,
62-65). -/
theorem c10_legacy_counterexample :
    load_prompts (JsonFile.parsed (JVal.obj
      [("benchmark_prompts", JVal.list [JVal.str "x"])])) = [fallbackPrompt] ∧
    [fallbackPrompt] ≠ [JVal.str (pyStr (JVal.str "x"))] := by
  refine ⟨rfl, fun h => ?_⟩
  injection h with h1 _
  injection h1 with h2
  revert h2
  decide

/-- C10 (amended): for a legacy source whose entries are all dicts,
`load_prompts` yields one prompt per entry in order — the `text` field
when present, otherwise `str(entry)` — and a dict entry without `text` is
neither skipped nor an error; but an entry that is not a dict makes the
whole load return the fallback list. -/
theorem c10_legacy_amended :
    (∀ fs : List (List (String × JVal)),
      load_prompts (JsonFile.parsed (JVal.obj
        [("benchmark_prompts", JVal.list (fs.map JVal.obj))])) =
        fs.map legacyEntryPrompt) ∧
    (∀ entries : List JVal, (∃ x ∈ entries, isDictEntry x = false) →
      load_prompts (JsonFile.parsed (JVal.obj
        [("benchmark_prompts", JVal.list entries)])) = [fallbackPrompt]) := by
  have hred : ∀ entries : List JVal,
      load_prompts (JsonFile.parsed (JVal.obj
        [("benchmark_prompts", JVal.list entries)])) =
      (match legacyExtract entries with
       | some ps => ps
       | none => [fallbackPrompt]) := fun entries => rfl
  constructor
  · intro fs
    rw [hred, legacyExtract_map_obj]
  · intro entries hx
    rw [hred, legacyExtract_none_of_nondict entries hx]

/-- C10 witness: one dict entry with a `text` field, one without (kept as
`str(entry)`), and separately a non-dict entry forcing the fallback. -/
theorem c10_legacy_witness :
    load_prompts (JsonFile.parsed (JVal.obj
      [("benchmark_prompts", JVal.list
        [JVal.obj [("text", JVal.str "a")], JVal.obj [("n", JVal.num 3)]])])) =
      [JVal.str "a", JVal.str (pyStr (JVal.obj [("n", JVal.num 3)]))] ∧
    (∃ x ∈ [JVal.num 7], isDictEntry x = false) ∧
    load_prompts (JsonFile.parsed (JVal.obj
      [("benchmark_prompts", JVal.list [JVal.num 7])])) = [fallbackPrompt] :=
  ⟨c10_legacy_amended.1 [[("text", JVal.str "a")], [("n", JVal.num 3)]],
   ⟨JVal.num 7, List.Mem.head _, rfl⟩,
   c10_legacy_amended.2 [JVal.num 7] ⟨JVal.num 7, List.Mem.head _, rfl⟩⟩

/-- C2: for every load/generation boundary behavior, the report holds
exactly one section per discovered checkpoint, in scan order; a checkpoint
whose load fails records the error with zero prompt results; a loaded
checkpoint records one result per prompt in order, a per-prompt failure
being that prompt's recorded result while the rest proceed. -/
theorem c2_sections_per_checkpoint (load : String → Except String Nat)
    (gen : String → JVal → GenOutcome)
    (cps : List String) (prompts : List JVal) :
    (benchmarkSections load gen cps prompts).length = cps.length ∧
    (∀ i : Nat, (benchmarkSections load gen cps prompts)[i]? =
      (cps[i]?).map (processCheckpoint load gen prompts)) ∧
    (∀ cp e, load cp = Except.error e →
      processCheckpoint load gen prompts cp = ⟨cp, Except.error e, []⟩) ∧
    (∀ cp t, load cp = Except.ok t →
      processCheckpoint load gen prompts cp =
        ⟨cp, Except.ok t, prompts.map (gen cp)⟩) := by
  refine ⟨List.length_map _ _, fun i => List.getElem?_map _ _ _,
    fun cp e h => ?_, fun cp t h => ?_⟩
  · simp [processCheckpoint, h]
  · simp [processCheckpoint, h]

/-- C2 witness: two checkpoints, the first failing to load (a section with
zero prompt results), the second loaded with its prompt's failure recorded
while the run went on to produce both sections. -/
theorem c2_sections_witness :
    ((fun c => if c = "r/bad" then Except.error "boom" else Except.ok 3)
        "r/bad" = Except.error "boom") ∧
    processCheckpoint
        (fun c => if c = "r/bad" then Except.error "boom" else Except.ok 3)
        (fun _ _ => Except.error "gen failed") [fallbackPrompt] "r/bad" =
      ⟨"r/bad", Except.error "boom", []⟩ ∧
    ((fun c => if c = "r/bad" then Except.error "boom" else Except.ok 3)
        "r/good" = Except.ok 3) ∧
    processCheckpoint
        (fun c => if c = "r/bad" then Except.error "boom" else Except.ok 3)
        (fun _ _ => Except.error "gen failed") [fallbackPrompt] "r/good" =
      ⟨"r/good", Except.ok 3, [Except.error "gen failed"]⟩ ∧
    (benchmarkSections
        (fun c => if c = "r/bad" then Except.error "boom" else Except.ok 3)
        (fun _ _ => Except.error "gen failed") ["r/bad", "r/good"]
        [fallbackPrompt]).length = 2 :=
  ⟨by simp, (c2_sections_per_checkpoint _ _ ["r/bad", "r/good"]
      [fallbackPrompt]).2.2.1 "r/bad" "boom" (by simp),
   by simp,
   (c2_sections_per_checkpoint _ _ ["r/bad", "r/good"]
      [fallbackPrompt]).2.2.2 "r/good" 3 (by simp),
   (c2_sections_per_checkpoint _ _ ["r/bad", "r/good"] [fallbackPrompt]).1⟩

/-- C7: the CLI exit code is `0` exactly when `run_benchmark` produced a
report path, and `1` exactly on the fatal paths — no prompts, checkpoint
root missing, zero valid checkpoints, failed inference import — or on
user interruption (and on an unexpected crash). -/
theorem c7_exit_codes :
    (∀ o : MainOutcome,
      mainExitCode o = 0 ↔ ∃ p, o = MainOutcome.completed (some p)) ∧
    (∀ src rootExists entries importOk od mn ts,
      mainExitCode (MainOutcome.completed
        (runBenchmark src rootExists entries importOk od mn ts)) = 1 ↔
      (load_prompts src = [] ∨ rootExists = false ∨
        discover_checkpoints entries = [] ∨ importOk = false)) ∧
    mainExitCode MainOutcome.interrupted = 1 ∧
    mainExitCode MainOutcome.crashed = 1 := by
  refine ⟨fun o => ?_, fun src root entries imp od mn ts => ?_, rfl, rfl⟩
  · cases o with
    | completed r =>
        cases r with
        | some p => exact ⟨fun _ => ⟨p, rfl⟩, fun _ => rfl⟩
        | none => simp [mainExitCode]
    | interrupted => simp [mainExitCode]
    | crashed => simp [mainExitCode]
  · unfold runBenchmark
    cases hp : (load_prompts src).isEmpty <;>
      cases root <;>
      cases hc : (discover_checkpoints entries).isEmpty <;>
      cases imp <;>
      simp_all [mainExitCode, List.isEmpty_iff]

/-- The streamed prompt loop writes exactly the pure rendering of the
recorded outcomes. -/
theorem genLoop_eq_renderPrompts (gen : String → JVal → GenOutcome)
    (cp : String) :
    ∀ (j : Nat) (ps : List JVal),
      genLoop gen cp j ps = renderPrompts j ps (ps.map (gen cp))
  | _, [] => rfl
  | j, p :: ps => by
      simp [genLoop, renderPrompts, genLoop_eq_renderPrompts gen cp (j + 1) ps]

/-- The streamed checkpoint loop writes exactly the pure rendering of the
recorded sections. -/
theorem writeLoop_eq_renderSections (load : String → Except String Nat)
    (gen : String → JVal → GenOutcome) (prompts : List JVal) :
    ∀ cps : List String,
      writeLoop load gen prompts cps =
        renderSections prompts (benchmarkSections load gen cps prompts)
  | [] => rfl
  | cp :: rest => by
      cases h : load cp <;>
        simp [writeLoop, renderSections, benchmarkSections, processCheckpoint,
          renderSection, h, genLoop_eq_renderPrompts,
          writeLoop_eq_renderSections load gen prompts rest]

/-- The full byte stream `run_benchmark` writes equals the pure rendering
of the report data it accumulates. -/
theorem writtenDoc_eq_renderReport (name ts : String)
    (load : String → Except String Nat) (gen : String → JVal → GenOutcome)
    (cps : List String) (prompts : List JVal) :
    writtenDoc name ts load gen cps prompts =
      renderReport (buildReport name ts load gen cps prompts) := by
  unfold writtenDoc renderReport buildReport
  simp [benchmarkSections, writeLoop_eq_renderSections]

/-- C4: the rendered report document is a pure function of the report
data — any two runs that accumulate equal `BenchmarkReport` data write
byte-identical documents, however their boundary functions differ. -/
theorem c4_render_deterministic (na ta : String)
    (la : String → Except String Nat) (ga : String → JVal → GenOutcome)
    (ca : List String) (pa : List JVal) (nb tb : String)
    (lb : String → Except String Nat) (gb : String → JVal → GenOutcome)
    (cb : List String) (pb : List JVal)
    (h : buildReport na ta la ga ca pa = buildReport nb tb lb gb cb pb) :
    writtenDoc na ta la ga ca pa = writtenDoc nb tb lb gb cb pb := by
  rw [writtenDoc_eq_renderReport, writtenDoc_eq_renderReport, h]

/-- C4 witness: two runs with different generation boundaries accumulate
the same report data (the only checkpoint fails to load, so no prompt ran)
and write byte-identical documents. -/
theorem c4_render_deterministic_witness :
    buildReport "m" "t" (fun _ => Except.error "e")
        (fun _ _ => Except.error "g1") ["runs/step_1"] [] =
      buildReport "m" "t" (fun _ => Except.error "e")
        (fun _ _ => Except.error "g2") ["runs/step_1"] [] ∧
    writtenDoc "m" "t" (fun _ => Except.error "e")
        (fun _ _ => Except.error "g1") ["runs/step_1"] [] =
      writtenDoc "m" "t" (fun _ => Except.error "e")
        (fun _ _ => Except.error "g2") ["runs/step_1"] [] :=
  ⟨rfl, c4_render_deterministic "m" "t" _ _ ["runs/step_1"] [] "m" "t" _ _
    ["runs/step_1"] [] rfl⟩

/-- On a list of positive probabilities, the smallest prefix whose
cumulative probability reaches the whole sum is the whole list. -/
theorem nucleusTake_sum :
    ∀ l : List (Nat × ℚ), (∀ t ∈ l, 0 < t.2) →
      nucleusTake ((l.map Prod.snd).sum) l = l
  | [], _ => rfl
  | [t], _ => by simp [nucleusTake]
  | t :: t' :: rest, h => by
      have hpos : ∀ x ∈ (t' :: rest).map Prod.snd, 0 < x := by
        intro x hx
        obtain ⟨u, hu, rfl⟩ := List.mem_map.mp hx
        exact h u (List.mem_cons_of_mem _ hu)
      have hrest : 0 < ((t' :: rest).map Prod.snd).sum :=
        List.sum_pos _ hpos (by simp)
      have hlt : ¬ ((t :: t' :: rest).map Prod.snd).sum ≤ t.2 := by
        simp only [List.map_cons, List.sum_cons] at *
        nlinarith
      rw [nucleusTake, if_neg hlt]
      have harg : ((t :: t' :: rest).map Prod.snd).sum - t.2 =
          ((t' :: rest).map Prod.snd).sum := by
        simp only [List.map_cons, List.sum_cons]
        ring
      rw [harg, nucleusTake_sum (t' :: rest)
        (fun u hu => h u (List.mem_cons_of_mem _ hu))]

/-- C6: on a next-token distribution (positive probabilities summing to
one) — as temperature-scaled softmax always produces for any temperature
above zero — nucleus filtering with `top_p = 1` keeps the whole sorted
distribution and the renormalization divides by one, so the sampled
distribution is exactly the temperature-scaled one (a permutation of the
input, reordered only by the descending sort). -/
theorem c6_nucleus_top_p_one (l : List (Nat × ℚ))
    (hpos : ∀ t ∈ l, 0 < t.2) (hsum : (l.map Prod.snd).sum = 1) :
    nucleusTake 1 (sortByProbDesc l) = sortByProbDesc l ∧
    List.Perm (nucleusFilter 1 l) l := by
  have hperm : List.Perm (sortByProbDesc l) l := List.perm_insertionSort _ _
  have hpos' : ∀ t ∈ sortByProbDesc l, 0 < t.2 :=
    fun t ht => hpos t (hperm.subset ht)
  have hsum' : ((sortByProbDesc l).map Prod.snd).sum = 1 := by
    rw [← hsum]
    exact (hperm.map Prod.snd).sum_eq
  have htake : nucleusTake 1 (sortByProbDesc l) = sortByProbDesc l := by
    rw [← hsum']
    exact nucleusTake_sum _ hpos'
  refine ⟨htake, ?_⟩
  unfold nucleusFilter renormalize
  rw [htake, hsum']
  simpa using hperm

/-- C6 witness: the uniform two-token distribution is positive and sums
to one, and nucleus filtering at `top_p = 1` leaves it intact. -/
theorem c6_nucleus_top_p_one_witness :
    (∀ t ∈ [((0 : Nat), (1 : ℚ)/2), ((1 : Nat), (1 : ℚ)/2)], 0 < t.2) ∧
    (([((0 : Nat), (1 : ℚ)/2), ((1 : Nat), (1 : ℚ)/2)].map Prod.snd).sum = 1) ∧
    List.Perm (nucleusFilter 1 [((0 : Nat), (1 : ℚ)/2), ((1 : Nat), (1 : ℚ)/2)])
      [((0 : Nat), (1 : ℚ)/2), ((1 : Nat), (1 : ℚ)/2)] :=
  ⟨by norm_num [List.forall_mem_cons], by norm_num,
   (c6_nucleus_top_p_one _ (by norm_num [List.forall_mem_cons]) (by norm_num)).2⟩

/-- Membership in the scanner's valid-pair list: exactly the `step_*`
directory entries whose computed key parses. -/
theorem mem_validPairs (entries : List DirEntry) (p : Int × String) :
    p ∈ validPairs entries ↔
    ∃ e ∈ entries, e.name = p.2 ∧ e.isDir = true ∧
      startsWithChars "step_".toList e.name.toList = true ∧
      stepKey e.name = some p.1 := by
  unfold validPairs
  rw [List.mem_filterMap]
  constructor
  · rintro ⟨e, he, hfe⟩
    by_cases hc : (startsWithChars "step_".toList e.name.toList && e.isDir) = true
    · rw [if_pos hc] at hfe
      obtain ⟨k, hk, hkp⟩ := Option.map_eq_some'.mp hfe
      obtain ⟨hstart, hdir⟩ := Bool.and_eq_true_iff.mp hc
      cases hkp
      exact ⟨e, he, rfl, hdir, hstart, hk⟩
    · rw [if_neg hc] at hfe
      exact absurd hfe (by simp)
  · rintro ⟨e, he, hn, hdir, hstart, hkey⟩
    refine ⟨e, he, ?_⟩
    rw [if_pos (by rw [hstart, hdir]; rfl), hkey]
    rw [hn]
    exact congrArg some (Prod.mk.eta)

/-- Every pair the scanner sorts carries the key its name parses to. -/
theorem stepKey_of_mem_validPairs (entries : List DirEntry)
    (p : Int × String) (hp : p ∈ validPairs entries) :
    stepKey p.2 = some p.1 := by
  obtain ⟨e, -, hn, -, -, hkey⟩ := (mem_validPairs entries p).mp hp
  rw [← hn]
  exact hkey

/-- C1 counterexample: on the concrete root
`step_05, step_5, step_-1, step_3_x` (all directories) the scanner's
output contains `step_-1` and `step_3_x`, whose `step_` suffixes do not
parse as non-negative integers, and the two distinct names `step_05` and
`step_5` share step 5, so the output is not strictly ascending: the claim
fails on this input. -/
theorem c1_discover_counterexample :
    discover_checkpoints scannerCex =
      ["step_-1", "step_3_x", "step_05", "step_5"] ∧
    claimStep "step_-1" = none ∧
    claimStep "step_3_x" = none ∧
    claimStep "step_05" = some 5 ∧
    claimStep "step_5" = some 5 ∧
    ¬ scannerClaim scannerCex := by
  refine ⟨by decide, by decide, by decide, by decide, by decide, ?_⟩
  rintro ⟨-, h2, -⟩
  obtain ⟨e, -, -, -, hsome⟩ := h2 "step_-1" (by decide)
  revert hsome
  decide

/-- C1 (amended): the scanner's output is sorted ascending (ties allowed:
distinct names can parse to the same step) by the key the code computes —
`int(name.split('_')[1])`, which also accepts negative steps and ignores
anything after a second underscore — and contains exactly the names of
directory entries matching `step_*` whose key parses; entries that are not
directories or whose key fails to parse are silently excluded. -/
theorem c1_discover_amended (entries : List DirEntry) :
    (discover_checkpoints entries).Pairwise
      (fun a b => ∃ x y, stepKey a = some x ∧ stepKey b = some y ∧ x ≤ y) ∧
    (∀ n, n ∈ discover_checkpoints entries ↔
      ∃ e ∈ entries, e.name = n ∧ e.isDir = true ∧
        startsWithChars "step_".toList n.toList = true ∧
        (stepKey n).isSome = true) := by
  constructor
  · unfold discover_checkpoints
    rw [List.pairwise_map]
    have hsorted : List.Sorted (fun a b : Int × String => a.1 ≤ b.1)
        ((validPairs entries).insertionSort (fun a b => a.1 ≤ b.1)) := by
      haveI : IsTotal (Int × String) (fun a b => a.1 ≤ b.1) :=
        ⟨fun a b => le_total a.1 b.1⟩
      haveI : IsTrans (Int × String) (fun a b => a.1 ≤ b.1) :=
        ⟨fun a b c hab hbc => le_trans hab hbc⟩
      exact List.sorted_insertionSort _ _
    have hkeys : ∀ p ∈ (validPairs entries).insertionSort
        (fun a b => a.1 ≤ b.1), stepKey p.2 = some p.1 :=
      fun p hp => stepKey_of_mem_validPairs entries p
        ((List.perm_insertionSort _ _).subset hp)
    exact List.Pairwise.imp_of_mem
      (fun ha hb hab => ⟨_, _, hkeys _ ha, hkeys _ hb, hab⟩) hsorted
  · intro n
    unfold discover_checkpoints
    rw [List.mem_map]
    constructor
    · rintro ⟨p, hp, rfl⟩
      have hp' := (List.perm_insertionSort _ _).subset hp
      obtain ⟨e, he, hn, hdir, hstart, hkey⟩ := (mem_validPairs entries p).mp hp'
      exact ⟨e, he, hn, hdir, hn ▸ hstart, by rw [← hn, hkey]; rfl⟩
    · rintro ⟨e, he, hn, hdir, hstart, hsome⟩
      obtain ⟨k, hk⟩ := Option.isSome_iff_exists.mp hsome
      refine ⟨(k, n), ?_, rfl⟩
      refine (List.perm_insertionSort _ _).mem_iff.mpr ?_
      exact (mem_validPairs entries (k, n)).mpr
        ⟨e, he, hn, hdir, by rw [hn]; exact hstart, by rw [hn]; exact hk⟩

/-- Every list is a prefix of itself. -/
theorem startsWithChars_refl : ∀ X : List Char, startsWithChars X X = true
  | [] => rfl
  | c :: cs => by simp [startsWithChars, startsWithChars_refl cs]

/-- Stripping a common leading block preserves the prefix test. -/
theorem startsWithChars_append_same :
    ∀ a X Z : List Char,
      startsWithChars (a ++ X) (a ++ Z) = startsWithChars X Z
  | [], _, _ => rfl
  | c :: a', X, Z => by
      simp [startsWithChars, startsWithChars_append_same a' X Z]

/-- A prefix of a list is a prefix of any right extension of it. -/
theorem startsWithChars_append_right :
    ∀ (X q r : List Char), startsWithChars X q = true →
      startsWithChars X (q ++ r) = true
  | [], _, _, _ => rfl
  | _ :: _, [], _, hX => by simp [startsWithChars] at hX
  | x :: xs, c :: cs, r, hX => by
      simp [startsWithChars] at hX ⊢
      exact ⟨hX.1, startsWithChars_append_right xs cs r hX.2⟩

/-- Two prefixes of the same list are comparable. -/
theorem startsWithChars_comparable :
    ∀ (q X Y : List Char), startsWithChars X q = true →
      startsWithChars Y q = true →
      startsWithChars X Y = true ∨ startsWithChars Y X = true
  | _, [], _, _, _ => Or.inl rfl
  | _, _ :: _, [], _, _ => Or.inr rfl
  | [], _ :: _, _ :: _, hX, _ => by simp [startsWithChars] at hX
  | c :: cs, x :: xs, y :: ys, hX, hY => by
      simp [startsWithChars] at hX hY
      obtain ⟨hxc, hXr⟩ := hX
      obtain ⟨hyc, hYr⟩ := hY
      subst hxc
      subst hyc
      rcases startsWithChars_comparable cs xs ys hXr hYr with h | h
      · exact Or.inl (by simp [startsWithChars, h])
      · exact Or.inr (by simp [startsWithChars, h])

/-- `String.toList` distributes over append. -/
theorem toList_append (a b : String) :
    (a ++ b).toList = a.toList ++ b.toList := rfl

/-- A path lies in its own tree. -/
theorem inTree_self (d : String) : inTree d d = true := by
  simp [inTree]

/-- Two cache roots `h ++ s1` and `h ++ s2` whose suffixes (slash-closed)
are prefix-incomparable have disjoint trees, whatever the home prefix. -/
theorem inTree_disjoint_of (h s1 s2 q : String)
    (h12 : startsWithChars (s1 ++ "/").toList (s2 ++ "/").toList = false)
    (h21 : startsWithChars (s2 ++ "/").toList (s1 ++ "/").toList = false)
    (ht1 : inTree (h ++ s1) q = true) (ht2 : inTree (h ++ s2) q = true) :
    False := by
  have hpat1 : ((h ++ s1) ++ "/").toList = h.toList ++ (s1 ++ "/").toList := by
    rw [toList_append, toList_append, toList_append, List.append_assoc]
  have hpat2 : ((h ++ s2) ++ "/").toList = h.toList ++ (s2 ++ "/").toList := by
    rw [toList_append, toList_append, toList_append, List.append_assoc]
  unfold inTree at ht1 ht2
  simp only [Bool.or_eq_true] at ht1 ht2
  rcases ht1 with he1 | hs1p <;> rcases ht2 with he2 | hs2p
  · -- q is both roots, so the suffixes coincide, contradicting h12
    have e12 : h ++ s1 = h ++ s2 := (eq_of_beq he1).symm.trans (eq_of_beq he2)
    have hls : s1.toList = s2.toList :=
      List.append_cancel_left
        (by rw [← toList_append, ← toList_append, e12])
    have : (s1 ++ "/").toList = (s2 ++ "/").toList := by
      rw [toList_append, toList_append, hls]
    rw [this, startsWithChars_refl] at h12
    cases h12
  · -- q is the first root and the second root's tree contains it
    have e1 : q = h ++ s1 := eq_of_beq he1
    subst e1
    rw [hpat2] at hs2p
    rw [show (h ++ s1).toList = h.toList ++ s1.toList from toList_append h s1,
      startsWithChars_append_same] at hs2p
    have hext := startsWithChars_append_right _ _ "/".toList hs2p
    rw [← toList_append] at hext
    rw [h21] at hext
    cases hext
  · -- symmetric: q is the second root, inside the first root's tree
    have e2 : q = h ++ s2 := eq_of_beq he2
    subst e2
    rw [hpat1] at hs1p
    rw [show (h ++ s2).toList = h.toList ++ s2.toList from toList_append h s2,
      startsWithChars_append_same] at hs1p
    have hext := startsWithChars_append_right _ _ "/".toList hs1p
    rw [← toList_append] at hext
    rw [h12] at hext
    cases hext
  · -- both slash-closed roots are prefixes of q, hence comparable
    rw [hpat1] at hs1p
    rw [hpat2] at hs2p
    rcases startsWithChars_comparable q.toList _ _ hs1p hs2p with hc | hc <;>
      rw [startsWithChars_append_same] at hc
    · rw [h12] at hc
      cases hc
    · rw [h21] at hc
      cases hc

/-- The four cache trees are pairwise disjoint for every home prefix. -/
theorem cacheDirs_disjoint (home : String) :
    ∀ d1 ∈ cacheDirs home, ∀ d2 ∈ cacheDirs home, d1 ≠ d2 →
      ∀ q : String, ¬(inTree d1 q = true ∧ inTree d2 q = true) := by
  intro d1 hd1 d2 hd2 hne q hq
  simp only [cacheDirs, List.mem_cons, List.not_mem_nil, or_false] at hd1 hd2
  rcases hd1 with rfl | rfl | rfl | rfl <;> rcases hd2 with rfl | rfl | rfl | rfl <;>
    first
      | exact hne rfl
      | exact inTree_disjoint_of home _ _ q (by decide) (by decide) hq.1 hq.2

/-- One clearing step never adds paths. -/
theorem rmStep_subset (f : String → Bool) (acc : List String) (d : String) :
    ∀ p ∈ rmStep f acc d, p ∈ acc := by
  intro p hp
  unfold rmStep at hp
  split_ifs at hp
  · exact hp
  · exact List.mem_of_mem_filter hp
  · exact hp

/-- The clearing loop never adds paths. -/
theorem foldl_rmStep_subset (f : String → Bool) :
    ∀ (L : List String) (acc : List String) (p : String),
      p ∈ L.foldl (rmStep f) acc → p ∈ acc
  | [], _, _, hp => hp
  | d :: L', acc, p, hp =>
      rmStep_subset f acc d p (foldl_rmStep_subset f L' (rmStep f acc d) p hp)

/-- One clearing step keeps a path whose deletion failed or that lies
outside the step's tree. -/
theorem rmStep_keep (f : String → Bool) (acc : List String) (d p : String)
    (hp : p ∈ acc) (hk : f d = true ∨ inTree d p = false) :
    p ∈ rmStep f acc d := by
  unfold rmStep
  split_ifs with h1 h2
  · exact hp
  · rcases hk with hf | hi
    · exact absurd hf h2
    · exact List.mem_filter.mpr ⟨hp, by simp [hi]⟩
  · exact hp

/-- The clearing loop keeps every path that, for each root, either had its
deletion fail or lies outside that root's tree. -/
theorem foldl_rmStep_keep (f : String → Bool) :
    ∀ (L : List String) (acc : List String) (p : String), p ∈ acc →
      (∀ d ∈ L, f d = true ∨ inTree d p = false) →
      p ∈ L.foldl (rmStep f) acc
  | [], _, _, hp, _ => hp
  | d :: L', acc, p, hp, hk =>
      foldl_rmStep_keep f L' (rmStep f acc d) p
        (rmStep_keep f acc d p hp (hk d (List.mem_cons_self d L')))
        (fun x hx => hk x (List.mem_cons_of_mem _ hx))

/-- If a root in the loop's list exists, its deletion succeeds, and no
other listed root's tree contains it, then its whole tree is gone after
the loop. -/
theorem foldl_rmStep_removes (f : String → Bool) :
    ∀ (L : List String) (acc : List String) (d : String), d ∈ L →
      (∀ d' ∈ L, d' ≠ d → ∀ q : String,
        ¬(inTree d' q = true ∧ inTree d q = true)) →
      f d = false → d ∈ acc →
      ∀ p, inTree d p = true → p ∉ L.foldl (rmStep f) acc
  | [], _, d, hd, _, _, _, _, _ => absurd hd (List.not_mem_nil d)
  | d' :: L', acc, d, hd, hdis, hf, hacc, p, hp => by
      by_cases hdd : d' = d
      · subst hdd
        intro hmem
        have hsub := foldl_rmStep_subset f L' (rmStep f acc d') p hmem
        unfold rmStep at hsub
        rw [if_pos hacc, if_neg (by simp [hf])] at hsub
        have hkeep := List.of_mem_filter hsub
        simp [hp] at hkeep
      · have hd' : d ∈ L' := by
          rcases List.mem_cons.mp hd with h | h
          · exact absurd h.symm hdd
          · exact h
        have hT : inTree d' d = false := by
          cases h : inTree d' d
          · rfl
          · exact absurd ⟨h, inTree_self d⟩
              (hdis d' (List.mem_cons_self d' L') hdd d)
        exact foldl_rmStep_removes f L' (rmStep f acc d') d hd'
          (fun x hx hne q => hdis x (List.mem_cons_of_mem _ hx) hne q) hf
          (rmStep_keep f acc d' d hacc (Or.inr hT)) p hp

/-- C8 counterexample: when `shutil.rmtree` on `~/.cache/huggingface`
raises, the `except Exception` of inference.py 29-34 swallows the error,
so importing the module leaves that cache directory in place (here the
whole filesystem is unchanged) while `PicoLMInference` remains usable —
the import does not unconditionally delete the four caches. -/
theorem c8_cache_counterexample :
    importInference "/root" (fun d => d == "/root/.cache/huggingface")
        ["/root/.cache/huggingface", "/root/data"] =
      ["/root/.cache/huggingface", "/root/data"] ∧
    "/root/.cache/huggingface" ∈
      importInference "/root" (fun d => d == "/root/.cache/huggingface")
        ["/root/.cache/huggingface", "/root/data"] := by
  constructor <;> decide

/-- C8 (amended): importing the inference module attempts, before any
model is loaded, to delete exactly the four `~/.cache` trees: no path is
ever added, every path outside the four trees survives, an existing cache
root whose `rmtree` succeeds is removed together with its whole tree, and
a root whose `rmtree` raises is left in place (the error is caught and
the import proceeds). -/
theorem c8_cache_amended (home : String) (rmtreeFails : String → Bool)
    (fs : List String) :
    (∀ p ∈ importInference home rmtreeFails fs, p ∈ fs) ∧
    (∀ p ∈ fs, (∀ d ∈ cacheDirs home, inTree d p = false) →
      p ∈ importInference home rmtreeFails fs) ∧
    (∀ d ∈ cacheDirs home, rmtreeFails d = false → d ∈ fs →
      ∀ p, inTree d p = true → p ∉ importInference home rmtreeFails fs) ∧
    (∀ d ∈ cacheDirs home, rmtreeFails d = true → d ∈ fs →
      d ∈ importInference home rmtreeFails fs) := by
  refine ⟨fun p hp => foldl_rmStep_subset _ _ _ p hp,
    fun p hp hout => foldl_rmStep_keep _ _ _ p hp
      (fun d hd => Or.inr (hout d hd)),
    fun d hd hf hdfs p hp => foldl_rmStep_removes _ _ _ d hd
      (fun x hx hne q => cacheDirs_disjoint home x hx d hd hne q) hf hdfs p hp,
    fun d hd hf hdfs => foldl_rmStep_keep _ _ _ d hdfs (fun x hx => ?_)⟩
  by_cases hxd : x = d
  · subst hxd
    exact Or.inl hf
  · refine Or.inr ?_
    cases h : inTree x d
    · rfl
    · exact absurd ⟨h, inTree_self d⟩ (cacheDirs_disjoint home x hx d hd hxd d)

/-- C8 witness: with every `rmtree` succeeding, the huggingface root and
a path inside its tree are gone while `/root/data` survives; with the
huggingface `rmtree` failing, that root survives the import. -/
theorem c8_cache_amended_witness :
    ("/root/.cache/huggingface" ∈ cacheDirs "/root") ∧
    inTree "/root/.cache/huggingface" "/root/.cache/huggingface/sub" = true ∧
    "/root/.cache/huggingface/sub" ∉
      importInference "/root" (fun _ => false)
        ["/root/.cache/huggingface", "/root/.cache/huggingface/sub",
         "/root/data"] ∧
    (∀ d ∈ cacheDirs "/root", inTree d "/root/data" = false) ∧
    "/root/data" ∈
      importInference "/root" (fun _ => false)
        ["/root/.cache/huggingface", "/root/.cache/huggingface/sub",
         "/root/data"] ∧
    "/root/.cache/huggingface" ∈
      importInference "/root" (fun d => d == "/root/.cache/huggingface")
        ["/root/.cache/huggingface", "/root/data"] :=
  ⟨by decide, by decide,
   (c8_cache_amended "/root" (fun _ => false)
       ["/root/.cache/huggingface", "/root/.cache/huggingface/sub",
        "/root/data"]).2.2.1 "/root/.cache/huggingface" (by decide) rfl
     (by decide) "/root/.cache/huggingface/sub" (by decide),
   by decide,
   (c8_cache_amended "/root" (fun _ => false)
       ["/root/.cache/huggingface", "/root/.cache/huggingface/sub",
        "/root/data"]).2.1 "/root/data" (by decide) (by decide),
   (c8_cache_amended "/root" (fun d => d == "/root/.cache/huggingface")
       ["/root/.cache/huggingface", "/root/data"]).2.2.2
     "/root/.cache/huggingface" (by decide) (by decide) (by decide)⟩
